import Mathlib

/-!
Verification of the BLE telemetry acquisition core of arkproject/raspberry-test.

The development shallowly embeds the parts of the JavaScript source that the
checked properties are about:

* `BLEDataHandler` (src/bluetooth/BLEDataHandler.js, v2.1.0): the frame codec —
  buffer-shape validation, fixed-offset field parsing, range validation,
  sequence-gap detection, and the `lastProcessedData` state — together with
  the method surface of its `BLEStatistics` collaborator and the key set of
  settings.js, because `updateStatistics`/`handleDecodingError` invoke
  statistics members that do not exist there and so raise `TypeError`s.
* `BLEEventManager` (src/bluetooth/BLEEventManager copy.js): the listener
  registry keyed by `` `${id}_${eventName}` `` over a JS `Map`.
* `BLEDiscovery` (src/bluetooth/BLEDiscovery.js): the discovery state machine —
  the device cache with TTL, the periodic cache sweep, idempotent
  start/stop, criteria matching and `findDevice`.

JavaScript `Map`s are embedded as insertion-ordered association lists with
unique keys; JS numbers that are always integral in the source are embedded as
`Int`/`Nat`; byte buffers are lists of bytes (`List Nat`, each `< 256`).
The relevant fragment of JS `ToNumber`/relational-comparison semantics is
embedded explicitly (`jsToNumber`, `jsLtStrNum`), because the source compares a
formatted RSSI *string* against a numeric threshold.
-/

/-! Section: JS `Map` embedding

A JavaScript `Map` is an insertion-ordered collection with unique keys:
`get` returns the value stored at a key, `set` overwrites in place when the key
is present and appends otherwise, `delete` removes the key's entry, and
iteration follows insertion order. -/

/-- A JS `Map` with `String` keys, as an insertion-ordered association list. -/
abbrev JSMap (α : Type) := List (String × α)

/-- Embeds `Map.prototype.get`. -/
def mapGet {α : Type} (m : JSMap α) (k : String) : Option α :=
  (m.find? (fun e => e.1 == k)).map (·.2)

/-- Embeds `Map.prototype.set`: overwrite in place when the key is present, append
otherwise. -/
def mapSet {α : Type} (m : JSMap α) (k : String) (v : α) : JSMap α :=
  if m.any (fun e => e.1 == k) then
    m.map (fun e => if e.1 == k then (k, v) else e)
  else
    m ++ [(k, v)]

/-- Embeds `Map.prototype.delete`. -/
def mapDelete {α : Type} (m : JSMap α) (k : String) : JSMap α :=
  m.filter (fun e => !(e.1 == k))

/-- Embeds `Map.prototype.size`. -/
def mapSize {α : Type} (m : JSMap α) : Nat := m.length

namespace BLEDataHandler

/-! Section: frame codec — `BLEDataHandler` (v2.1.0)

The decoder receives a Node.js `Buffer`, embedded here as a `List Nat` of
bytes. `validateBuffer` checks the exact 20-byte shape, `parseBuffer` reads
the nine 16-bit fields through a `DataView`, `validateDecodedData` range-checks
every field against `dataValidationRules.valueRanges`, and `checkSequence`
emits a non-fatal sequence-error notification on a gap. -/

/-- Reading byte `i` of the buffer (a Node `Buffer` is a `Uint8Array`; every
entry is `< 256`). A `0` default stands in for out-of-range access, which the
source never performs: `parseBuffer` runs only on 20-byte buffers and reads
offsets `0`–`17`. -/
def byteAt (buf : List Nat) (i : Nat) : Nat := buf.getD i 0

/-- Embeds `DataView.prototype.getUint16(off, false)` — big-endian unsigned 16-bit. -/
def getUint16be (buf : List Nat) (off : Nat) : Nat :=
  256 * byteAt buf off + byteAt buf (off + 1)

/-- Embeds `DataView.prototype.getUint16(off, true)` — little-endian unsigned 16-bit. -/
def getUint16le (buf : List Nat) (off : Nat) : Nat :=
  byteAt buf off + 256 * byteAt buf (off + 1)

/-- Two's-complement reinterpretation of a 16-bit pattern as a signed value. -/
def int16OfBits (v : Nat) : Int :=
  if v < 32768 then (v : Int) else (v : Int) - 65536

/-- Embeds `DataView.prototype.getInt16(off, true)` — little-endian signed 16-bit. -/
def getInt16le (buf : List Nat) (off : Nat) : Int :=
  int16OfBits (getUint16le buf off)

/-- The decoded frame record produced by `parseBuffer` (Italian field names as
in the source; the spec calls them sequenceNumber, accelX/Y/Z, heelPressure,
forefootPressure1/2, signal1/2). All JS numbers here are integral. -/
structure DecodedData where
  numero_progressivo : Int
  asse_x : Int
  asse_y : Int
  asse_z : Int
  pressione_tallone : Int
  pressione_primo_metatarso : Int
  pressione_quinto_metatarso : Int
  segnale_uno : Int
  segnale_due : Int
deriving Repr, DecidableEq

/-- Embeds `BLEDataHandler.parseBuffer`: fixed offsets and endianness of the layout
table — big-endian u16 at 0, little-endian i16 at 2/4/6, little-endian u16 at
8/10/12/14/16; bytes 18–19 unused. -/
def parseBuffer (buf : List Nat) : DecodedData :=
  { numero_progressivo := (getUint16be buf 0 : Int)
    asse_x := getInt16le buf 2
    asse_y := getInt16le buf 4
    asse_z := getInt16le buf 6
    pressione_tallone := (getUint16le buf 8 : Int)
    pressione_primo_metatarso := (getUint16le buf 10 : Int)
    pressione_quinto_metatarso := (getUint16le buf 12 : Int)
    segnale_uno := (getUint16le buf 14 : Int)
    segnale_due := (getUint16le buf 16 : Int) }

/-- The `BLEError`s thrown by the decoding pipeline (all carry
`ErrorCodes.BLE.NOTIFICATION_ERROR`; the spec groups them as `InvalidFrame`). -/
inductive BLEErr where
  /-- Embeds `'Dimensione buffer non valida'` from `validateBuffer`. -/
  | invalidBufferSize (expectedLength actualLength : Nat)
  /-- Embeds `'Campo dati mancante'` from `validateDecodedData`. -/
  | missingField (field : String)
  /-- Embeds `'Valore fuori range'` from `validateDecodedData`. -/
  | valueOutOfRange (field : String) (value : Int)
deriving Repr, DecidableEq

/-- Embeds `dataValidationRules.minBufferLength` (and `maxBufferLength`). -/
def minBufferLength : Nat := 20

/-- Embeds `BLEDataHandler.validateBuffer`: rejects any buffer whose length is not
exactly 20. (The preceding `!(buffer instanceof Buffer)` guard is vacuous
here: the embedding's input type is already a byte list.) -/
def validateBuffer (buf : List Nat) : Except BLEErr Unit :=
  if buf.length ≠ minBufferLength then
    .error (.invalidBufferSize minBufferLength buf.length)
  else
    .ok ()

/-- Embeds `dataValidationRules.valueRanges`, in `Object.entries` (insertion) order. -/
def valueRanges : List (String × Int × Int) :=
  [ ("numero_progressivo", 0, 65535)
  , ("asse_x", -32768, 32767)
  , ("asse_y", -32768, 32767)
  , ("asse_z", -32768, 32767)
  , ("pressione_tallone", 0, 65535)
  , ("pressione_primo_metatarso", 0, 65535)
  , ("pressione_quinto_metatarso", 0, 65535)
  , ("segnale_uno", 0, 65535)
  , ("segnale_due", 0, 65535) ]

/-- Embeds `data[field]` — dynamic field access on the decoded record. -/
def fieldValue (d : DecodedData) (field : String) : Option Int :=
  if field = "numero_progressivo" then some d.numero_progressivo
  else if field = "asse_x" then some d.asse_x
  else if field = "asse_y" then some d.asse_y
  else if field = "asse_z" then some d.asse_z
  else if field = "pressione_tallone" then some d.pressione_tallone
  else if field = "pressione_primo_metatarso" then some d.pressione_primo_metatarso
  else if field = "pressione_quinto_metatarso" then some d.pressione_quinto_metatarso
  else if field = "segnale_uno" then some d.segnale_uno
  else if field = "segnale_due" then some d.segnale_due
  else none

/-- One iteration of the `validateDecodedData` loop body. -/
def checkField (d : DecodedData) (entry : String × Int × Int) : Except BLEErr Unit :=
  match fieldValue d entry.1 with
  | none => .error (.missingField entry.1)
  | some v =>
      if v < entry.2.1 ∨ v > entry.2.2 then
        .error (.valueOutOfRange entry.1 v)
      else
        .ok ()

/-- The `for (const [field, range] of Object.entries(...))` loop of
`validateDecodedData`: check each entry in order, stopping at the first
thrown error. -/
def validateFields (d : DecodedData) : List (String × Int × Int) → Except BLEErr Unit
  | [] => .ok ()
  | entry :: rest =>
      match checkField d entry with
      | .ok () => validateFields d rest
      | .error err => .error err

/-- Embeds `BLEDataHandler.validateDecodedData`: range-checks every field of
`valueRanges`, throwing on the first missing or out-of-range one. -/
def validateDecodedData (d : DecodedData) : Except BLEErr Unit :=
  validateFields d valueRanges

/-- The payload of a `data:sequence_error` event (its `timestamp` field is
I/O enrichment and not modelled). -/
structure SequenceErrorEvent where
  expected : Int
  received : Int
deriving Repr, DecidableEq

/-- Embeds `(this.lastProcessedData.numero_progressivo + 1) % 65536` — JS `%` is the
truncating remainder, `Int.tmod`. -/
def expectedSequence (prev : Int) : Int := (prev + 1).tmod 65536

/-- Embeds `BLEDataHandler.checkSequence`: with a previous processed frame on record,
a current sequence number different from `(previous + 1) % 65536` emits exactly
one `data:sequence_error` event carrying the expected and received values; with
no previous frame nothing is emitted. The frame is never rejected here. -/
def checkSequence (last : Option DecodedData) (current : DecodedData) :
    List SequenceErrorEvent :=
  match last with
  | none => []
  | some prev =>
      let expected := expectedSequence prev.numero_progressivo
      if current.numero_progressivo ≠ expected then
        [⟨expected, current.numero_progressivo⟩]
      else
        []

/-- The decoder state: `this.lastProcessedData` (assigned only at the very
end of a fully successful `decodeData` run). -/
structure HandlerState where
  lastProcessedData : Option DecodedData
deriving Repr, DecidableEq

/-- Errors that can propagate out of the decoding pipeline: the `BLEError`s
the pipeline constructs deliberately, and the JS `TypeError`s raised by
invoking a method a collaborator does not define or by reading a property of
`undefined`. -/
inductive JSError where
  | ble (e : BLEErr)
  | typeError (message : String)
deriving Repr, DecidableEq

/-- Methods defined by the repository's only `BLEStatistics` class
(the module `../utils/BLEStatistics` that the `BLEDataHandler` constructor
instantiates into `this.statistics`; its API is also pinned by the repo's
BLEStatistics test suite). Note there is no `incrementCounter` and no
`incrementErrorCount` — the data counter is `incrementDataCounter`. -/
def bleStatisticsMethods : List String :=
  [ "incrementDiscoveredDevices", "incrementDataCounter", "updateConnectionState"
  , "setCurrentFile", "getStats", "reset", "_calculateUptime" ]

/-- Top-level keys of the configuration object exported by
src/config/settings.js. Note there is no `DATA_ANALYSIS` key. -/
def settingsKeys : List String :=
  [ "SCAN_DURATION", "LOG_LEVEL", "FILE_SETTINGS", "BLE_SETTINGS"
  , "SESSION_SETTINGS", "TARGET_DEVICE", "SCAN_SETTINGS", "DISCOVERY"
  , "DATA_FORMAT" ]

/-- JS dynamic method invocation `this.statistics.<name>()`: calling a
property the object does not define raises a `TypeError`. -/
def callStatisticsMethod (name : String) : Except JSError Unit :=
  if bleStatisticsMethods.contains name then .ok ()
  else .error (.typeError ("this.statistics." ++ name ++ " is not a function"))

/-- Reading `settings.<key>.<field>`: when `<key>` is not a property of the
settings object, the nested access reads a property of `undefined` and raises
a `TypeError`. -/
def readSettingsField (key field : String) : Except JSError Unit :=
  if settingsKeys.contains key then .ok ()
  else .error (.typeError
    ("Cannot read properties of undefined (reading " ++ field ++ ")"))

/-- Embeds `BLEDataHandler.updateStatistics`: calls
`this.statistics.incrementCounter()` and then tests
`settings.DATA_ANALYSIS.ENABLED`. In this repository `BLEStatistics` has no
`incrementCounter` method (and settings.js no `DATA_ANALYSIS` key), so the
first step already raises a `TypeError`. -/
def updateStatistics : Except JSError Unit := do
  callStatisticsMethod "incrementCounter"
  readSettingsField "DATA_ANALYSIS" "ENABLED"

/-- Embeds the decode-relevant behavior of `BLEDataHandler.handleDecodingError`
(the catch-block handler): `this.logger.writeError(...)` succeeds (`BLELogger`
defines `writeError`), then `this.statistics.incrementErrorCount()` runs — a
method `BLEStatistics` does not define — so in this repository the handler
itself raises a `TypeError` and the trailing `handleError` call is never
reached. -/
def handleDecodingError : Except JSError Unit :=
  callStatisticsMethod "incrementErrorCount"

/-- Embeds `BLEDataHandler.decodeData` (v2.1.0): validate shape, parse,
range-check, run the sequence check (its `data:sequence_error` notifications
fire at that point), enrich and log the record (`logData` swallows logger
errors internally), call `updateStatistics`, and only then assign
`this.lastProcessedData` and return the frame. Any error thrown inside the
try block goes through `handleDecodingError` in the catch; when that handler
itself throws — as it does in this repository — its `TypeError` propagates
*instead of* the original error and the `throw error` rethrow is never
reached. Result triple: (returned frame or propagated error, sequence-error
events emitted during the call, state after the call). -/
def decodeData (st : HandlerState) (buf : List Nat) :
    Except JSError DecodedData × List SequenceErrorEvent × HandlerState :=
  let rethrow : JSError → Except JSError DecodedData := fun err =>
    match handleDecodingError with
    | .error handlerErr => .error handlerErr
    | .ok _ => .error err
  match validateBuffer buf with
  | .error e => (rethrow (.ble e), [], st)
  | .ok _ =>
      let d := parseBuffer buf
      match validateDecodedData d with
      | .error e => (rethrow (.ble e), [], st)
      | .ok _ =>
          let events := checkSequence st.lastProcessedData d
          match updateStatistics with
          | .error e => (rethrow e, events, st)
          | .ok _ => (.ok d, events, ⟨some d⟩)

/-- Embeds `BLEDataHandler.getLastProcessedData`. -/
def getLastProcessedData (st : HandlerState) : Option DecodedData :=
  st.lastProcessedData

/-- A well-formed Node `Buffer` content: every byte is below 256. -/
def validBytes (buf : List Nat) : Prop := ∀ b ∈ buf, b ≤ 255

instance (buf : List Nat) : Decidable (validBytes buf) := by
  unfold validBytes; infer_instance

end BLEDataHandler

namespace BLEEventManager

/-! Section: listener registry — `BLEEventManager`

`deviceListeners` is a JS `Map` keyed by `generateListenerKey(device.address,
eventName)`. Registering wraps the callback and stores a record holding the
device, event name and both callbacks; only the identity of the original
callback matters for the registry invariants, so callbacks are embedded as
opaque numeric identities. -/

/-- The part of a `deviceListeners` record relevant to the registry invariant:
the target identity (`device.address`), the event name, and the identity of
the registered callback. -/
structure ListenerInfo where
  address : String
  eventName : String
  listenerId : Nat
deriving Repr, DecidableEq

/-- Embeds `this.deviceListeners`. -/
abbrev Registry := JSMap ListenerInfo

/-- Embeds `BLEEventManager.generateListenerKey`: `` `${id}_${eventName}` ``. -/
def generateListenerKey (id eventName : String) : String :=
  id ++ "_" ++ eventName

/-- Embeds `BLEEventManager.removeDeviceListener`: deletes the record stored under the
key, if any (also detaching the wrapped callback from the device, which is
I/O). -/
def removeDeviceListener (m : Registry) (address eventName : String) : Registry :=
  mapDelete m (generateListenerKey address eventName)

/-- Embeds `BLEEventManager.addDeviceListener`: first removes any pre-existing
registration for the same key, then stores the new record under the key. -/
def addDeviceListener (m : Registry) (address eventName : String)
    (listenerId : Nat) : Registry :=
  mapSet (removeDeviceListener m address eventName)
    (generateListenerKey address eventName) ⟨address, eventName, listenerId⟩

/-- Embeds `BLEEventManager.removeAllDeviceListeners`: collects the keys of every
record whose stored `device.address` equals the target's address, then deletes
each collected key. -/
def removeAllDeviceListeners (m : Registry) (address : String) : Registry :=
  let keysToRemove := (m.filter (fun e => e.2.address == address)).map (·.1)
  keysToRemove.foldl mapDelete m

/-- A registry operation, for quantifying over operation histories. -/
inductive RegOp where
  | add (address eventName : String) (listenerId : Nat)
  | remove (address eventName : String)
  | removeAll (address : String)
deriving Repr, DecidableEq

/-- Apply one operation. -/
def applyOp (m : Registry) : RegOp → Registry
  | .add address eventName listenerId => addDeviceListener m address eventName listenerId
  | .remove address eventName => removeDeviceListener m address eventName
  | .removeAll address => removeAllDeviceListeners m address

/-- Run an operation history from the initial empty registry
(`new Map()` in the constructor). -/
def runOps (ops : List RegOp) : Registry :=
  ops.foldl applyOp []

/-- Number of active registrations for a given (target identity, event name)
pair. -/
def countFor (m : Registry) (address eventName : String) : Nat :=
  (m.filter (fun e => e.2.address == address && e.2.eventName == eventName)).length

/-- The representation invariant the source maintains on `deviceListeners`:
`Map` keys are unique, and every record is stored under the key generated
from its own address and event name. -/
def Inv (m : Registry) : Prop :=
  (m.map (·.1)).Nodup
  ∧ ∀ e ∈ m, e.1 = generateListenerKey e.2.address e.2.eventName

end BLEEventManager

namespace BLEDiscovery

/-! Section: discovery — `BLEDiscovery`

The discovery component owns `isDiscovering`, the `discoveredDevices` cache
(a JS `Map` from address to device info), the `findDevice` timer and the
adapter reference. Wall-clock instants (`Date.now()` and the stored
`timestamp`s) are embedded as integer milliseconds. Adapter/device calls are
external collaborators; their outcomes are supplied through `AdapterOutcome` /
`SearchEnv` parameters. The background poll loop and the periodic cache sweep
are concurrent with `findDevice`; the sweep is embedded as the function
`cleanupCache` and the poll loop's effect on the cache is supplied per poll
round (`Round.cache`), so theorems quantify over every interleaving. A ghost
counter `pollLoopsStarted` records how many background poll loops have been
launched. -/

/-- Embeds `CACHE_CONFIG.MAX_AGE` (ms). -/
def MAX_AGE : Int := 10000

/-- Embeds `CACHE_CONFIG.CLEANUP_INTERVAL` (ms). -/
def CLEANUP_INTERVAL : Int := 30000

/-- A `discoveredDevices` cache entry, as produced by `getDeviceInfo` plus the
`timestamp` recorded on insertion. `rssi` is the *formatted string* the source
stores (`` `${rssi} dBm` `` or `'Non disponibile'`). -/
structure DeviceInfo where
  address : String
  name : String
  rssi : String
  time : Int
deriving Repr, DecidableEq

/-- The modelled fields of a `BLEDiscovery` instance. `discoveryTimer` is
`true` when a timer handle is pending; `adapterSet` is `this.adapter !== null`;
`pollLoopsStarted` is a ghost counter of launched background poll loops. -/
structure DiscoveryState where
  isDiscovering : Bool
  discoveredDevices : JSMap DeviceInfo
  discoveryTimer : Bool
  adapterSet : Bool
  pollLoopsStarted : Nat
deriving Repr, DecidableEq

/-- Embeds `BLEDiscovery.isCacheValid(address)` (with the default
`maxAge = CACHE_CONFIG.MAX_AGE`, the only one used): a missing entry is
invalid; a present entry is valid iff its age is strictly below `MAX_AGE`. -/
def isCacheValid (st : DiscoveryState) (now : Int) (address : String) : Bool :=
  match mapGet st.discoveredDevices address with
  | none => false
  | some d => decide (now - d.time < MAX_AGE)

/-- Embeds `BLEDiscovery._cleanupCache` (the body of the periodic sweep): removes
every entry whose address is no longer cache-valid. -/
def cleanupCache (st : DiscoveryState) (now : Int) : DiscoveryState :=
  { st with discoveredDevices :=
      st.discoveredDevices.filter (fun e => isCacheValid st now e.1) }

/-- Embeds `BLEDiscovery.getDiscoveredDevices(includeExpired)`: all cached values, or
only the cache-valid ones. -/
def getDiscoveredDevices (st : DiscoveryState) (now : Int)
    (includeExpired : Bool) : List DeviceInfo :=
  if includeExpired then
    st.discoveredDevices.map (·.2)
  else
    (st.discoveredDevices.map (·.2)).filter (fun d => isCacheValid st now d.address)

/-- The events `BLEDiscovery` emits on its event manager (those relevant to
the checked properties). -/
inductive DiscoEvent where
  | starting
  | started
  | stopping
  | stopped (devicesFound : Nat)
  | deviceFound (info : DeviceInfo)
  | searchStarted
  | searchTimeout
deriving Repr, DecidableEq

/-- Outcomes of the adapter's own discovery calls during one
`startDiscovery`/`stopDiscovery` invocation. Errors carry their message
string, against which the source matches `'No discovery started'`. -/
structure AdapterOutcome where
  isDiscoveringNow : Bool
  stopResult : Except String Unit
  startResult : Except String Unit
deriving Repr

/-- Whether the char list `p` is an initial segment of the second list. -/
def listStartsWith : List Char → List Char → Bool
  | [], _ => true
  | _ :: _, [] => false
  | a :: as, b :: bs => a == b && listStartsWith as bs

/-- Embeds `String.prototype.includes` on the underlying char lists. -/
def listContainsSub (p : List Char) : List Char → Bool
  | [] => listStartsWith p []
  | c :: cs => listStartsWith p (c :: cs) || listContainsSub p cs

/-- Embeds `message.includes(sub)`. -/
def strContains (s sub : String) : Bool :=
  listContainsSub sub.data s.data

/-- Embeds `BLEDiscovery.stopDiscovery`: always clears the `findDevice` timer first.
When no adapter is bound or no discovery is active it logs and returns —
emitting nothing. Otherwise it flips `isDiscovering` *before* the transport
stop call, tolerates a `'No discovery started'` transport error, and emits
`stopping` then `stopped` with the cached-device count; any other transport
error is reported through the outer catch (so nothing is thrown to the
caller) without emitting `stopped`. -/
def stopDiscovery (st : DiscoveryState) (a : AdapterOutcome) :
    DiscoveryState × List DiscoEvent :=
  let st1 := { st with discoveryTimer := false }
  if !st1.adapterSet || !st1.isDiscovering then
    (st1, [])
  else
    let st2 := { st1 with isDiscovering := false }
    match a.stopResult with
    | .ok _ => (st2, [.stopping, .stopped (mapSize st2.discoveredDevices)])
    | .error msg =>
        if strContains msg "No discovery started" then
          (st2, [.stopping, .stopped (mapSize st2.discoveredDevices)])
        else
          (st2, [.stopping])

/-- Embeds `BLEDiscovery.startDiscovery`: throws when no adapter is bound; returns
`true` immediately (no events, no state change, no new poll loop) when
discovery is already active. Otherwise: `ensureDiscoveryStopped` (best-effort,
errors swallowed, `isDiscovering` stays `false`), emit `starting`, clear the
device cache, call the adapter's `startDiscovery`; on success set
`isDiscovering`, launch the background poll loop and emit `started`; a
`'No discovery started'` error is tolerated (returns `true` without flipping
the flag); any other error propagates. The returned triple is
(result-or-throw, state, emitted events). -/
def startDiscovery (st : DiscoveryState) (a : AdapterOutcome) :
    Except String Bool × DiscoveryState × List DiscoEvent :=
  if !st.adapterSet then
    (.error "Adapter non impostato", st, [])
  else if st.isDiscovering then
    (.ok true, st, [])
  else
    let st1 := { st with discoveredDevices := [] }
    match a.startResult with
    | .ok _ =>
        (.ok true,
         { st1 with isDiscovering := true, pollLoopsStarted := st1.pollLoopsStarted + 1 },
         [.starting, .started])
    | .error msg =>
        if strContains msg "No discovery started" then
          (.ok true, st1, [.starting])
        else
          (.error msg, st1, [.starting])

/-- The external collaborators of `findDevice`: `adapter.getDevice` (`none`
embeds a throw), the resolved name fetch (`none` embeds the
`.catch(() => 'Sconosciuto')` fallback path), the RSSI after all fallbacks
(`none` embeds `null`), and the adapter call outcomes. -/
structure SearchEnv where
  getDevice : String → Option String
  fetchName : String → Option String
  fetchRssi : String → Option Int
  adapter : AdapterOutcome

/-- Embeds `BLEDiscovery.getDeviceInfo`: name with `|| 'Sconosciuto'` fallback
(so an empty string also falls back), RSSI formatted as `` `${rssi} dBm` ``
when non-null and `'Non disponibile'` otherwise, plus the current
timestamp. Never throws. -/
def getDeviceInfo (env : SearchEnv) (address : String) (now : Int) : DeviceInfo :=
  let name :=
    match env.fetchName address with
    | some n => if n == "" then "Sconosciuto" else n
    | none => "Sconosciuto"
  let rssi :=
    match env.fetchRssi address with
    | some r => toString r ++ " dBm"
    | none => "Non disponibile"
  { address := address, name := name, rssi := rssi, time := now }

/-- Embeds `findDevice` search criteria: `{ name, minRssi }`, either possibly
absent. -/
structure Criteria where
  name : Option String
  minRssi : Option Int
deriving Repr, DecidableEq

/-- JS whitespace for `ToNumber` trimming. -/
def isWS (c : Char) : Bool :=
  c == ' ' || c == '\t' || c == '\n' || c == '\r'

/-- Digit-string value; `none` when empty or any char is not a digit. -/
def digitsToNat? (cs : List Char) : Option Nat :=
  if cs.isEmpty then none
  else
    cs.foldl
      (fun acc c =>
        match acc with
        | none => none
        | some n => if c.isDigit then some (10 * n + (c.toNat - 48)) else none)
      (some 0)

/-- The integer fragment of the JS `ToNumber` coercion applied to a string:
surrounding whitespace is trimmed, the empty string is `0`, an optionally
signed run of decimal digits is its value, and anything else — in particular
any string with a non-numeric suffix such as `"-90 dBm"` or
`"Non disponibile"` — is `NaN`, embedded as `none`. -/
def jsToNumber (s : String) : Option Int :=
  let cs := ((s.data.dropWhile isWS).reverse.dropWhile isWS).reverse
  match cs with
  | [] => some 0
  | '-' :: rest => (digitsToNat? rest).map (fun n => -(n : Int))
  | '+' :: rest => (digitsToNat? rest).map (fun n => (n : Int))
  | rest => (digitsToNat? rest).map (fun n => (n : Int))

/-- The JS relational comparison `s < n` between a string and a number: the
string is coerced with `ToNumber`; a `NaN` comparison is `false`. -/
def jsLtStrNum (s : String) (n : Int) : Bool :=
  match jsToNumber s with
  | none => false
  | some v => decide (v < n)

/-- JS truthiness of `criteria.name` (absent or `''` is falsy). -/
def jsTruthyStr : Option String → Bool
  | none => false
  | some s => !(s == "")

/-- JS truthiness of `criteria.minRssi` (absent or `0` is falsy). -/
def jsTruthyInt : Option Int → Bool
  | none => false
  | some n => !(n == 0)

/-- Embeds `BLEDiscovery.matchesCriteria`: when a (truthy) name is given the device's
name must equal it; when a (truthy) `minRssi` is given the device is rejected
when `deviceInfo.rssi < criteria.minRssi` — a string-vs-number JS
comparison. -/
def matchesCriteria (info : DeviceInfo) (criteria : Criteria) : Bool :=
  if jsTruthyStr criteria.name && !(some info.name == criteria.name) then
    false
  else if jsTruthyInt criteria.minRssi
      && jsLtStrNum info.rssi (criteria.minRssi.getD 0) then
    false
  else
    true

/-- One iteration of `findDevice`'s `while` loop, as observed by the search:
the `Date.now()` of the iteration, the `discoveredDevices` contents as
concurrently maintained by the background poll loop, and the addresses
returned by `adapter.devices()`. -/
structure Round where
  now : Int
  cache : JSMap DeviceInfo
  addrs : List String

/-- The `for (const address of devices)` body of `findDevice`. A cache-valid
entry matching the criteria returns the live handle directly; a fresh fetch
that matches first awaits `stopDiscovery` and emits `device_found`; a throwing
`getDevice` is caught and the scan continues. Returns `none` when no address
in the list produced a return. The `Bool` in the result is ghost
instrumentation: `true` iff the match came from the cache-valid branch. -/
def scanAddrs (env : SearchEnv) (criteria : Criteria) (st : DiscoveryState)
    (now : Int) : List String → Option (String × Bool × DiscoveryState × List DiscoEvent)
  | [] => none
  | address :: rest =>
      if isCacheValid st now address then
        match mapGet st.discoveredDevices address with
        | some cached =>
            if matchesCriteria cached criteria then
              match env.getDevice address with
              | some dev => some (dev, true, st, [])
              | none => scanAddrs env criteria st now rest
            else
              scanAddrs env criteria st now rest
        | none => scanAddrs env criteria st now rest
      else
        match env.getDevice address with
        | none => scanAddrs env criteria st now rest
        | some dev =>
            let info := getDeviceInfo env address now
            if matchesCriteria info criteria then
              let stopped := stopDiscovery st env.adapter
              some (dev, false, stopped.1, stopped.2 ++ [.deviceFound info])
            else
              scanAddrs env criteria st now rest

/-- The `while (Date.now() - searchStartTime < timeout)` loop of `findDevice`:
each `Round` is one iteration still inside the timeout window; an empty list
embeds an elapsed timeout, upon which discovery is stopped and the
`search_timeout` event emitted. -/
def findLoop (env : SearchEnv) (criteria : Criteria) (st : DiscoveryState) :
    List Round → Option (String × Bool) × DiscoveryState × List DiscoEvent
  | [] =>
      let stopped := stopDiscovery st env.adapter
      (none, stopped.1, stopped.2 ++ [.searchTimeout])
  | r :: rest =>
      let stR := { st with discoveredDevices := r.cache }
      match scanAddrs env criteria stR r.now r.addrs with
      | some (dev, viaCache, st2, evs) => (some (dev, viaCache), st2, evs)
      | none => findLoop env criteria stR rest

/-- Embeds `BLEDiscovery.findDevice`: start discovery, emit `search_started`, then
poll; the outer catch stops discovery and returns `null` when startup (or
anything else) threw. The result's ghost `Bool` marks a cache-valid-branch
match. -/
def findDevice (env : SearchEnv) (criteria : Criteria) (st : DiscoveryState)
    (rounds : List Round) : Option (String × Bool) × DiscoveryState × List DiscoEvent :=
  match startDiscovery st env.adapter with
  | (.ok _, st1, evs1) =>
      let looped := findLoop env criteria st1 rounds
      (looped.1, looped.2.1, evs1 ++ [.searchStarted] ++ looped.2.2)
  | (.error _, st1, evs1) =>
      let stopped := stopDiscovery st1 env.adapter
      (none, stopped.1, evs1 ++ stopped.2)

/-- Well-formedness of the cache as maintained by the source: keys are unique
(a JS `Map`) and every entry is stored under its own address. -/
def WF (st : DiscoveryState) : Prop :=
  (st.discoveredDevices.map (·.1)).Nodup
  ∧ ∀ e ∈ st.discoveredDevices, e.2.address = e.1

end BLEDiscovery

/-! Theorems. -/

namespace BLEDataHandler

theorem byteAt_le_of_validBytes {buf : List Nat} (hb : validBytes buf) (i : Nat) :
    byteAt buf i ≤ 255 := by
  induction buf generalizing i with
  | nil => simp [byteAt]
  | cons b bs ih =>
      cases i with
      | zero => exact hb b (List.mem_cons_self _ _)
      | succ n =>
          have hb' : validBytes bs := fun x hx => hb x (List.mem_cons_of_mem _ hx)
          simpa [byteAt] using ih hb' n

theorem getUint16be_le {buf : List Nat} (hb : validBytes buf) (off : Nat) :
    getUint16be buf off ≤ 65535 := by
  have h1 := byteAt_le_of_validBytes hb off
  have h2 := byteAt_le_of_validBytes hb (off + 1)
  unfold getUint16be
  omega

theorem getUint16le_le {buf : List Nat} (hb : validBytes buf) (off : Nat) :
    getUint16le buf off ≤ 65535 := by
  have h1 := byteAt_le_of_validBytes hb off
  have h2 := byteAt_le_of_validBytes hb (off + 1)
  unfold getUint16le
  omega

theorem int16OfBits_bounds {v : Nat} (hv : v ≤ 65535) :
    -32768 ≤ int16OfBits v ∧ int16OfBits v ≤ 32767 := by
  unfold int16OfBits
  split <;> omega

theorem getInt16le_bounds {buf : List Nat} (hb : validBytes buf) (off : Nat) :
    -32768 ≤ getInt16le buf off ∧ getInt16le buf off ≤ 32767 :=
  int16OfBits_bounds (getUint16le_le hb off)

theorem checkField_ok (d : DecodedData) (f : String) (lo hi v : Int)
    (hv : fieldValue d f = some v) (h1 : lo ≤ v) (h2 : v ≤ hi) :
    checkField d (f, lo, hi) = .ok () := by
  simp only [checkField, hv]
  rw [if_neg (by omega)]

theorem validateDecodedData_ok {d : DecodedData}
    (h1 : 0 ≤ d.numero_progressivo) (h2 : d.numero_progressivo ≤ 65535)
    (h3 : -32768 ≤ d.asse_x) (h4 : d.asse_x ≤ 32767)
    (h5 : -32768 ≤ d.asse_y) (h6 : d.asse_y ≤ 32767)
    (h7 : -32768 ≤ d.asse_z) (h8 : d.asse_z ≤ 32767)
    (h9 : 0 ≤ d.pressione_tallone) (h10 : d.pressione_tallone ≤ 65535)
    (h11 : 0 ≤ d.pressione_primo_metatarso) (h12 : d.pressione_primo_metatarso ≤ 65535)
    (h13 : 0 ≤ d.pressione_quinto_metatarso) (h14 : d.pressione_quinto_metatarso ≤ 65535)
    (h15 : 0 ≤ d.segnale_uno) (h16 : d.segnale_uno ≤ 65535)
    (h17 : 0 ≤ d.segnale_due) (h18 : d.segnale_due ≤ 65535) :
    validateDecodedData d = .ok () := by
  have c1 := checkField_ok d "numero_progressivo" 0 65535 d.numero_progressivo
    (by simp [fieldValue]) h1 h2
  have c2 := checkField_ok d "asse_x" (-32768) 32767 d.asse_x
    (by simp [fieldValue]) h3 h4
  have c3 := checkField_ok d "asse_y" (-32768) 32767 d.asse_y
    (by simp [fieldValue]) h5 h6
  have c4 := checkField_ok d "asse_z" (-32768) 32767 d.asse_z
    (by simp [fieldValue]) h7 h8
  have c5 := checkField_ok d "pressione_tallone" 0 65535 d.pressione_tallone
    (by simp [fieldValue]) h9 h10
  have c6 := checkField_ok d "pressione_primo_metatarso" 0 65535 d.pressione_primo_metatarso
    (by simp [fieldValue]) h11 h12
  have c7 := checkField_ok d "pressione_quinto_metatarso" 0 65535 d.pressione_quinto_metatarso
    (by simp [fieldValue]) h13 h14
  have c8 := checkField_ok d "segnale_uno" 0 65535 d.segnale_uno
    (by simp [fieldValue]) h15 h16
  have c9 := checkField_ok d "segnale_due" 0 65535 d.segnale_due
    (by simp [fieldValue]) h17 h18
  simp [validateDecodedData, valueRanges, validateFields, c1, c2, c3, c4, c5, c6, c7, c8, c9]

theorem validateDecodedData_parse_ok {buf : List Nat} (hb : validBytes buf) :
    validateDecodedData (parseBuffer buf) = .ok () := by
  refine validateDecodedData_ok ?_ ?_ ?_ ?_ ?_ ?_ ?_ ?_ ?_ ?_ ?_ ?_ ?_ ?_ ?_ ?_ ?_ ?_ <;>
    simp only [parseBuffer]
  · exact Int.natCast_nonneg _
  · exact_mod_cast getUint16be_le hb 0
  · exact (getInt16le_bounds hb 2).1
  · exact (getInt16le_bounds hb 2).2
  · exact (getInt16le_bounds hb 4).1
  · exact (getInt16le_bounds hb 4).2
  · exact (getInt16le_bounds hb 6).1
  · exact (getInt16le_bounds hb 6).2
  · exact Int.natCast_nonneg _
  · exact_mod_cast getUint16le_le hb 8
  · exact Int.natCast_nonneg _
  · exact_mod_cast getUint16le_le hb 10
  · exact Int.natCast_nonneg _
  · exact_mod_cast getUint16le_le hb 12
  · exact Int.natCast_nonneg _
  · exact_mod_cast getUint16le_le hb 14
  · exact Int.natCast_nonneg _
  · exact_mod_cast getUint16le_le hb 16

theorem updateStatistics_crashes :
    updateStatistics =
      .error (.typeError "this.statistics.incrementCounter is not a function") := rfl

theorem handleDecodingError_crashes :
    handleDecodingError =
      .error (.typeError "this.statistics.incrementErrorCount is not a function") := rfl

theorem decodeData_never_ok (st : HandlerState) (buf : List Nat) :
    ∀ d, (decodeData st buf).1 ≠ .ok d := by
  intro d
  unfold decodeData
  cases h1 : validateBuffer buf with
  | error e1 => simp [handleDecodingError_crashes]
  | ok u =>
      cases h2 : validateDecodedData (parseBuffer buf) with
      | error e2 => simp [h2, handleDecodingError_crashes]
      | ok u2 => simp [h2, updateStatistics_crashes, handleDecodingError_crashes]

theorem decodeData_state_unchanged (st : HandlerState) (buf : List Nat) :
    (decodeData st buf).2.2 = st := by
  unfold decodeData
  cases h1 : validateBuffer buf with
  | error e1 => simp
  | ok u =>
      cases h2 : validateDecodedData (parseBuffer buf) with
      | error e2 => simp [h2]
      | ok u2 => simp [h2, updateStatistics_crashes]

theorem decodeData_crash {st : HandlerState} {buf : List Nat}
    (hlen : buf.length = 20) (hb : validBytes buf) :
    decodeData st buf =
      (.error (.typeError "this.statistics.incrementErrorCount is not a function"),
       checkSequence st.lastProcessedData (parseBuffer buf), st) := by
  have hv : validateBuffer buf = .ok () := by
    simp [validateBuffer, hlen, minBufferLength]
  simp [decodeData, hv, validateDecodedData_parse_ok hb,
        updateStatistics_crashes, handleDecodingError_crashes]

theorem decodeData_badshape (st : HandlerState) (buf : List Nat)
    (hlen : buf.length ≠ 20) :
    decodeData st buf =
      (.error (.typeError "this.statistics.incrementErrorCount is not a function"),
       [], st) := by
  have hv : validateBuffer buf = .error (.invalidBufferSize 20 buf.length) := by
    simp [validateBuffer, minBufferLength, hlen]
  simp [decodeData, hv, handleDecodingError_crashes]

end BLEDataHandler

namespace BLEDataHandler

/-- C1 (code bug): `parseBuffer` does read every field at the claimed fixed
offsets and endianness — the spec's example bytes parse to
`{sequenceNumber 1, accelX 2, accelY 3, accelZ 4, heelPressure 5,
forefootPressure1 6, forefootPressure2 7, signal1 8, signal2 9}` — but
`decodeData` never returns that record: after all checks pass,
`updateStatistics` calls `this.statistics.incrementCounter()`, a method the
repository's `BLEStatistics` does not define (the next line would read the
equally nonexistent `settings.DATA_ANALYSIS`), so the try block throws a
`TypeError`; the catch handler then calls the nonexistent
`incrementErrorCount`, and that `TypeError` is what propagates. The repo's
own BLEDataHandler test suite expects the decoded record, so the claim is
the intent and the code the slip. -/
theorem decode_crashes_despite_layout (st : HandlerState) (buf : List Nat)
    (hlen : buf.length = 20) (hb : validBytes buf) :
    parseBuffer buf =
      { numero_progressivo := ((256 * byteAt buf 0 + byteAt buf 1 : Nat) : Int)
        asse_x := int16OfBits (byteAt buf 2 + 256 * byteAt buf 3)
        asse_y := int16OfBits (byteAt buf 4 + 256 * byteAt buf 5)
        asse_z := int16OfBits (byteAt buf 6 + 256 * byteAt buf 7)
        pressione_tallone := ((byteAt buf 8 + 256 * byteAt buf 9 : Nat) : Int)
        pressione_primo_metatarso := ((byteAt buf 10 + 256 * byteAt buf 11 : Nat) : Int)
        pressione_quinto_metatarso := ((byteAt buf 12 + 256 * byteAt buf 13 : Nat) : Int)
        segnale_uno := ((byteAt buf 14 + 256 * byteAt buf 15 : Nat) : Int)
        segnale_due := ((byteAt buf 16 + 256 * byteAt buf 17 : Nat) : Int) }
    ∧ updateStatistics =
        .error (.typeError "this.statistics.incrementCounter is not a function")
    ∧ (decodeData st buf).1 =
        .error (.typeError "this.statistics.incrementErrorCount is not a function")
    ∧ parseBuffer
        [0x00, 0x01, 0x02, 0x00, 0x03, 0x00, 0x04, 0x00, 0x05, 0x00,
         0x06, 0x00, 0x07, 0x00, 0x08, 0x00, 0x09, 0x00, 0x0A, 0x00] =
        ⟨1, 2, 3, 4, 5, 6, 7, 8, 9⟩
    ∧ decodeData ⟨none⟩
        [0x00, 0x01, 0x02, 0x00, 0x03, 0x00, 0x04, 0x00, 0x05, 0x00,
         0x06, 0x00, 0x07, 0x00, 0x08, 0x00, 0x09, 0x00, 0x0A, 0x00] =
        (.error (.typeError "this.statistics.incrementErrorCount is not a function"),
         [], ⟨none⟩) := by
  refine ⟨rfl, rfl, ?_, rfl, rfl⟩
  rw [decodeData_crash hlen hb]

theorem decode_crashes_despite_layout_witness :
    parseBuffer
        [0x00, 0x01, 0x02, 0x00, 0x03, 0x00, 0x04, 0x00, 0x05, 0x00,
         0x06, 0x00, 0x07, 0x00, 0x08, 0x00, 0x09, 0x00, 0x0A, 0x00] =
      ⟨1, 2, 3, 4, 5, 6, 7, 8, 9⟩
    ∧ decodeData ⟨none⟩
        [0x00, 0x01, 0x02, 0x00, 0x03, 0x00, 0x04, 0x00, 0x05, 0x00,
         0x06, 0x00, 0x07, 0x00, 0x08, 0x00, 0x09, 0x00, 0x0A, 0x00] =
        (.error (.typeError "this.statistics.incrementErrorCount is not a function"),
         [], ⟨none⟩) :=
  ⟨(decode_crashes_despite_layout ⟨none⟩
      [0x00, 0x01, 0x02, 0x00, 0x03, 0x00, 0x04, 0x00, 0x05, 0x00,
       0x06, 0x00, 0x07, 0x00, 0x08, 0x00, 0x09, 0x00, 0x0A, 0x00]
      (by decide) (by decide)).2.2.2.1,
   (decode_crashes_despite_layout ⟨none⟩
      [0x00, 0x01, 0x02, 0x00, 0x03, 0x00, 0x04, 0x00, 0x05, 0x00,
       0x06, 0x00, 0x07, 0x00, 0x08, 0x00, 0x09, 0x00, 0x0A, 0x00]
      (by decide) (by decide)).2.2.2.2⟩

/-- C2 (code bug): a buffer whose length is not exactly 20 does make
`validateBuffer` throw the invalid-frame (buffer-size) `BLEError`, and
`decodeData` never returns a decoded record for it — but the error that
actually propagates is not `InvalidFrame`: inside the catch,
`handleDecodingError` calls the nonexistent
`this.statistics.incrementErrorCount()`, and its `TypeError` replaces the
`BLEError` before the rethrow is reached, so the caller observes a
`TypeError` rather than the claimed `InvalidFrame` error. -/
theorem wrong_length_crashes_handler (st : HandlerState) (buf : List Nat)
    (hlen : buf.length ≠ 20) :
    validateBuffer buf = .error (.invalidBufferSize 20 buf.length)
    ∧ decodeData st buf =
        (.error (.typeError "this.statistics.incrementErrorCount is not a function"),
         [], st)
    ∧ (∀ e : BLEErr, (decodeData st buf).1 ≠ .error (.ble e))
    ∧ (∀ d, (decodeData st buf).1 ≠ .ok d) := by
  have hv : validateBuffer buf = .error (.invalidBufferSize 20 buf.length) := by
    simp [validateBuffer, minBufferLength, hlen]
  have hd := decodeData_badshape st buf hlen
  refine ⟨hv, hd, ?_, ?_⟩
  · intro e
    rw [hd]
    simp
  · intro d
    rw [hd]
    simp

theorem wrong_length_crashes_handler_witness :
    validateBuffer [0] = .error (.invalidBufferSize 20 1)
    ∧ decodeData ⟨none⟩ [0] =
        (.error (.typeError "this.statistics.incrementErrorCount is not a function"),
         [], ⟨none⟩)
    ∧ decodeData ⟨none⟩ (List.replicate 21 0) =
        (.error (.typeError "this.statistics.incrementErrorCount is not a function"),
         [], ⟨none⟩) :=
  ⟨(wrong_length_crashes_handler ⟨none⟩ [0] (by decide)).1,
   (wrong_length_crashes_handler ⟨none⟩ [0] (by decide)).2.1,
   (wrong_length_crashes_handler ⟨none⟩ (List.replicate 21 0) (by decide)).2.1⟩

/-- C3 (code bug): the sequence-check unit itself implements exactly the
claimed comparison — with a previous frame on record it emits one event
carrying `(previous + 1) % 65536` and the received number on mismatch, and
nothing on match — but the program can never reach that state: every
`decodeData` call throws before `this.lastProcessedData` is assigned, so no
frame is ever committed and no sequence-error event is ever emitted.
Decoding sequence 1 then sequence 3 emits nothing, where the claim (and the
repo's own test suite) expect exactly one `{expected 2, received 3}`
event. -/
theorem sequence_error_never_emitted (prev current : DecodedData) :
    (checkSequence (some prev) current =
        if current.numero_progressivo ≠ expectedSequence prev.numero_progressivo
        then [⟨expectedSequence prev.numero_progressivo, current.numero_progressivo⟩]
        else [])
    ∧ (0 ≤ prev.numero_progressivo →
        expectedSequence prev.numero_progressivo = (prev.numero_progressivo + 1) % 65536)
    ∧ checkSequence (some ⟨1, 0, 0, 0, 0, 0, 0, 0, 0⟩)
        (parseBuffer [0, 3, 0, 0, 0, 0, 0, 0, 0, 0, 0, 0, 0, 0, 0, 0, 0, 0, 0, 0]) =
        [⟨2, 3⟩]
    ∧ (decodeData ⟨none⟩
        [0, 1, 0, 0, 0, 0, 0, 0, 0, 0, 0, 0, 0, 0, 0, 0, 0, 0, 0, 0]).2.2 =
        (⟨none⟩ : HandlerState)
    ∧ (decodeData (decodeData ⟨none⟩
          [0, 1, 0, 0, 0, 0, 0, 0, 0, 0, 0, 0, 0, 0, 0, 0, 0, 0, 0, 0]).2.2
          [0, 3, 0, 0, 0, 0, 0, 0, 0, 0, 0, 0, 0, 0, 0, 0, 0, 0, 0, 0]).2.1 = []
    ∧ (∀ st buf d, (decodeData st buf).1 ≠ .ok d) := by
  refine ⟨rfl, ?_, rfl, rfl, rfl, fun st buf d => decodeData_never_ok st buf d⟩
  intro hp
  unfold expectedSequence
  exact Int.tmod_eq_emod (by omega) (by omega)

theorem sequence_error_never_emitted_witness :
    (decodeData (decodeData ⟨none⟩
        [0, 1, 0, 0, 0, 0, 0, 0, 0, 0, 0, 0, 0, 0, 0, 0, 0, 0, 0, 0]).2.2
        [0, 3, 0, 0, 0, 0, 0, 0, 0, 0, 0, 0, 0, 0, 0, 0, 0, 0, 0, 0]).2.1 = []
    ∧ expectedSequence 1 = (1 + 1) % 65536 :=
  ⟨(sequence_error_never_emitted ⟨1, 0, 0, 0, 0, 0, 0, 0, 0⟩
      ⟨3, 0, 0, 0, 0, 0, 0, 0, 0⟩).2.2.2.2.1,
   (sequence_error_never_emitted ⟨1, 0, 0, 0, 0, 0, 0, 0, 0⟩
      ⟨3, 0, 0, 0, 0, 0, 0, 0, 0⟩).2.1 (by decide)⟩

/-- C9: every field parsed from a 20-byte buffer already lies within its
declared range (unsigned fields in 0–65535, accel fields in −32768–32767), so
`validateDecodedData` accepts every parse result — the out-of-range rejection
branch (and the missing-field branch) is dead code for these full-width
fields, including at the boundary bit patterns — and `decodeData` of a
20-byte buffer can never fail with a range violation. (In this repository
`decodeData` does fail, but with the statistics `TypeError`, never with the
out-of-range error.) -/
theorem parse_always_in_range (st : HandlerState) (buf : List Nat)
    (hlen : buf.length = 20) (hb : validBytes buf) :
    (0 ≤ (parseBuffer buf).numero_progressivo ∧ (parseBuffer buf).numero_progressivo ≤ 65535)
    ∧ (-32768 ≤ (parseBuffer buf).asse_x ∧ (parseBuffer buf).asse_x ≤ 32767)
    ∧ (-32768 ≤ (parseBuffer buf).asse_y ∧ (parseBuffer buf).asse_y ≤ 32767)
    ∧ (-32768 ≤ (parseBuffer buf).asse_z ∧ (parseBuffer buf).asse_z ≤ 32767)
    ∧ (0 ≤ (parseBuffer buf).pressione_tallone ∧ (parseBuffer buf).pressione_tallone ≤ 65535)
    ∧ (0 ≤ (parseBuffer buf).pressione_primo_metatarso
        ∧ (parseBuffer buf).pressione_primo_metatarso ≤ 65535)
    ∧ (0 ≤ (parseBuffer buf).pressione_quinto_metatarso
        ∧ (parseBuffer buf).pressione_quinto_metatarso ≤ 65535)
    ∧ (0 ≤ (parseBuffer buf).segnale_uno ∧ (parseBuffer buf).segnale_uno ≤ 65535)
    ∧ (0 ≤ (parseBuffer buf).segnale_due ∧ (parseBuffer buf).segnale_due ≤ 65535)
    ∧ validateDecodedData (parseBuffer buf) = .ok ()
    ∧ (∀ f v, (decodeData st buf).1 ≠ .error (.ble (.valueOutOfRange f v)))
    ∧ (∀ f, (decodeData st buf).1 ≠ .error (.ble (.missingField f))) := by
  refine ⟨?_, ?_, ?_, ?_, ?_, ?_, ?_, ?_, ?_, validateDecodedData_parse_ok hb, ?_, ?_⟩
  · exact ⟨Int.natCast_nonneg _,
      by show ((getUint16be buf 0 : Nat) : Int) ≤ 65535; exact_mod_cast getUint16be_le hb 0⟩
  · exact getInt16le_bounds hb 2
  · exact getInt16le_bounds hb 4
  · exact getInt16le_bounds hb 6
  · exact ⟨Int.natCast_nonneg _,
      by show ((getUint16le buf 8 : Nat) : Int) ≤ 65535; exact_mod_cast getUint16le_le hb 8⟩
  · exact ⟨Int.natCast_nonneg _,
      by show ((getUint16le buf 10 : Nat) : Int) ≤ 65535; exact_mod_cast getUint16le_le hb 10⟩
  · exact ⟨Int.natCast_nonneg _,
      by show ((getUint16le buf 12 : Nat) : Int) ≤ 65535; exact_mod_cast getUint16le_le hb 12⟩
  · exact ⟨Int.natCast_nonneg _,
      by show ((getUint16le buf 14 : Nat) : Int) ≤ 65535; exact_mod_cast getUint16le_le hb 14⟩
  · exact ⟨Int.natCast_nonneg _,
      by show ((getUint16le buf 16 : Nat) : Int) ≤ 65535; exact_mod_cast getUint16le_le hb 16⟩
  · intro f v
    rw [decodeData_crash hlen hb]
    simp
  · intro f
    rw [decodeData_crash hlen hb]
    simp

theorem parse_always_in_range_witness :
    validateDecodedData (parseBuffer
      [0xFF, 0xFF, 0x00, 0x80, 0xFF, 0x7F, 0x00, 0x00, 0xFF, 0xFF,
       0x00, 0x00, 0xFF, 0xFF, 0x00, 0x00, 0xFF, 0xFF, 0x00, 0x00]) = .ok () :=
  (parse_always_in_range ⟨none⟩
    [0xFF, 0xFF, 0x00, 0x80, 0xFF, 0x7F, 0x00, 0x00, 0xFF, 0xFF,
     0x00, 0x00, 0xFF, 0xFF, 0x00, 0x00, 0xFF, 0xFF, 0x00, 0x00]
    (by decide) (by decide)).2.2.2.2.2.2.2.2.2.1

/-- C10 (implicit; code bug): the failure half of the claim holds of the
code — on a failed decode the stored last-processed frame is untouched,
`getLastProcessedData` is unchanged and the next decode behaves exactly as if
the rejected input had never been seen — but in this repository that is all
there is: *every* `decodeData` call fails (the statistics `TypeError` fires
on the success path before `this.lastProcessedData` is assigned, and the
catch handler's own `TypeError` fires on every error path), so no frame is
ever committed, `getLastProcessedData` can only ever return the initial
`null`, and the claim's "most recent successfully decoded frame" and "first
successfully decoded frame" never exist; from the initial state no
sequence-error event is ever emitted. -/
theorem decode_never_commits (st : HandlerState) (buf buf2 : List Nat) :
    (decodeData st buf).2.2 = st
    ∧ getLastProcessedData (decodeData st buf).2.2 = getLastProcessedData st
    ∧ decodeData (decodeData st buf).2.2 buf2 = decodeData st buf2
    ∧ (decodeData (⟨none⟩ : HandlerState) buf).2.1 = []
    ∧ (∀ d, (decodeData st buf).1 ≠ .ok d) := by
  have hstate := decodeData_state_unchanged st buf
  refine ⟨hstate, by rw [hstate], by rw [hstate], ?_, decodeData_never_ok st buf⟩
  unfold decodeData
  cases h1 : validateBuffer buf with
  | error e1 => simp
  | ok u =>
      cases h2 : validateDecodedData (parseBuffer buf) with
      | error e2 => simp [h2]
      | ok u2 => simp [h2, updateStatistics_crashes, checkSequence]

theorem decode_never_commits_witness :
    (decodeData (⟨none⟩ : HandlerState)
        [0x00, 0x01, 0x02, 0x00, 0x03, 0x00, 0x04, 0x00, 0x05, 0x00,
         0x06, 0x00, 0x07, 0x00, 0x08, 0x00, 0x09, 0x00, 0x0A, 0x00]).2.2 =
      (⟨none⟩ : HandlerState) :=
  (decode_never_commits ⟨none⟩
    [0x00, 0x01, 0x02, 0x00, 0x03, 0x00, 0x04, 0x00, 0x05, 0x00,
     0x06, 0x00, 0x07, 0x00, 0x08, 0x00, 0x09, 0x00, 0x0A, 0x00] []).1

end BLEDataHandler


namespace BLEEventManager

theorem mapDelete_sublist {α : Type} (m : JSMap α) (k : String) :
    List.Sublist (mapDelete m k) m :=
  List.filter_sublist m

theorem mem_of_mem_mapDelete {α : Type} {m : JSMap α} {k : String}
    {e : String × α} (he : e ∈ mapDelete m k) : e ∈ m :=
  (List.mem_filter.mp he).1

theorem key_ne_of_mem_mapDelete {α : Type} {m : JSMap α} {k : String}
    {e : String × α} (he : e ∈ mapDelete m k) : e.1 ≠ k := by
  have h := (List.mem_filter.mp he).2
  simpa using h

theorem not_any_mapDelete {α : Type} (m : JSMap α) (k : String) :
    (mapDelete m k).any (fun e => e.1 == k) = false := by
  rw [List.any_eq_false]
  intro e he
  simpa using key_ne_of_mem_mapDelete he

theorem addDeviceListener_eq (m : Registry) (a ev : String) (lid : Nat) :
    addDeviceListener m a ev lid =
      mapDelete m (generateListenerKey a ev)
        ++ [(generateListenerKey a ev, ⟨a, ev, lid⟩)] := by
  unfold addDeviceListener removeDeviceListener mapSet
  rw [not_any_mapDelete]
  simp

theorem inv_mapDelete {m : Registry} (hm : Inv m) (k : String) :
    Inv (mapDelete m k) := by
  refine ⟨hm.1.sublist ((mapDelete_sublist m k).map (·.1)), ?_⟩
  intro e he
  exact hm.2 e (mem_of_mem_mapDelete he)

theorem inv_of_sublist {m m' : Registry} (hm : Inv m)
    (hs : List.Sublist m' m) : Inv m' :=
  ⟨hm.1.sublist (hs.map (·.1)), fun e he => hm.2 e (hs.subset he)⟩

theorem inv_addDeviceListener {m : Registry} (hm : Inv m)
    (a ev : String) (lid : Nat) : Inv (addDeviceListener m a ev lid) := by
  rw [addDeviceListener_eq]
  have hdel := inv_mapDelete hm (generateListenerKey a ev)
  constructor
  · rw [List.map_append, List.nodup_append]
    refine ⟨hdel.1, List.nodup_singleton _, ?_⟩
    intro x hx
    simp only [List.map_cons, List.map_nil, List.mem_singleton]
    intro hxk
    rcases List.mem_map.mp hx with ⟨e, he, rfl⟩
    exact key_ne_of_mem_mapDelete he hxk
  · intro e he
    rcases List.mem_append.mp he with h | h
    · exact hdel.2 e h
    · rcases List.mem_singleton.mp h with rfl
      rfl

theorem foldl_mapDelete_eq_filter {α : Type} (ks : List String) (m : JSMap α) :
    ks.foldl mapDelete m = m.filter (fun e => !(ks.contains e.1)) := by
  induction ks generalizing m with
  | nil => simp
  | cons k ks ih =>
      rw [List.foldl_cons, ih]
      unfold mapDelete
      rw [List.filter_filter]
      apply List.filter_congr
      intro e he
      rw [List.contains_cons, Bool.not_or]
      exact Bool.and_comm _ _

theorem removeAll_eq_filter {m : Registry} (hm : Inv m) (t : String) :
    removeAllDeviceListeners m t = m.filter (fun e => !(e.2.address == t)) := by
  unfold removeAllDeviceListeners
  rw [foldl_mapDelete_eq_filter]
  apply List.filter_congr
  intro e he
  congr 1
  cases hc : ((m.filter (fun x => x.2.address == t)).map (·.1)).contains e.1 with
  | true =>
      have hmem : e.1 ∈ (m.filter (fun x => x.2.address == t)).map (·.1) :=
        List.mem_of_elem_eq_true hc
      rcases List.mem_map.mp hmem with ⟨x, hx, hxk⟩
      have hxm : x ∈ m := (List.mem_filter.mp hx).1
      have hxt : x.2.address = t := by
        have h := (List.mem_filter.mp hx).2
        simpa using h
      have hex : x = e := List.inj_on_of_nodup_map hm.1 hxm he hxk
      rw [← hex, hxt]
      simp
  | false =>
      have hne : e.2.address ≠ t := by
        intro hat
        have hmem : e ∈ m.filter (fun x => x.2.address == t) :=
          List.mem_filter.mpr ⟨he, by simp [hat]⟩
        have h1 : e.1 ∈ (m.filter (fun x => x.2.address == t)).map (·.1) :=
          List.mem_map_of_mem (·.1) hmem
        have h2 := List.elem_eq_true_of_mem h1
        rw [show ((m.filter (fun x => x.2.address == t)).map (·.1)).contains e.1
              = List.elem e.1 ((m.filter (fun x => x.2.address == t)).map (·.1)) from rfl] at hc
        rw [h2] at hc
        cases hc
      simp [hne]

theorem inv_applyOp {m : Registry} (hm : Inv m) (op : RegOp) : Inv (applyOp m op) := by
  cases op with
  | add a ev lid => exact inv_addDeviceListener hm a ev lid
  | remove a ev => exact inv_mapDelete hm _
  | removeAll a =>
      show Inv (removeAllDeviceListeners m a)
      rw [removeAll_eq_filter hm]
      exact inv_of_sublist hm (List.filter_sublist m)

theorem runOps_inv (ops : List RegOp) : Inv (runOps ops) := by
  suffices h : ∀ m : Registry, Inv m → Inv (ops.foldl applyOp m) from
    h [] ⟨List.nodup_nil, by intro e he; cases he⟩
  induction ops with
  | nil => intro m hm; exact hm
  | cons op ops ih =>
      intro m hm
      exact ih (applyOp m op) (inv_applyOp hm op)

theorem length_le_one_of_nodup_map_const {β γ : Type} {l : List β} {f : β → γ} {c : γ}
    (hn : (l.map f).Nodup) (hc : ∀ x ∈ l, f x = c) : l.length ≤ 1 := by
  cases l with
  | nil => simp
  | cons x xs =>
      cases xs with
      | nil => simp
      | cons y ys =>
          exfalso
          have h1 : f x = c := hc x (by simp)
          have h2 : f y = c := hc y (by simp)
          have hn' : (f x :: f y :: ys.map f).Nodup := by simpa using hn
          have hnotmem : f x ∉ (f y :: ys.map f) := (List.nodup_cons.mp hn').1
          apply hnotmem
          rw [h1, ← h2]
          exact List.mem_cons_self _ _

theorem countFor_le_one_of_inv {m : Registry} (hm : Inv m) (a ev : String) :
    countFor m a ev ≤ 1 := by
  unfold countFor
  have hsub : List.Sublist
      (m.filter (fun e => e.2.address == a && e.2.eventName == ev)) m :=
    List.filter_sublist m
  have hall : ∀ e ∈ m.filter (fun e => e.2.address == a && e.2.eventName == ev),
      e.1 = generateListenerKey a ev := by
    intro e he
    have hem : e ∈ m := hsub.subset he
    have hpred := (List.mem_filter.mp he).2
    rw [Bool.and_eq_true_iff] at hpred
    have h1 : e.2.address = a := by
      have := hpred.1
      simpa using this
    have h2 : e.2.eventName = ev := by
      have := hpred.2
      simpa using this
    rw [hm.2 e hem, h1, h2]
  exact length_le_one_of_nodup_map_const (hm.1.sublist (hsub.map (·.1))) hall

theorem add_filter_single {m : Registry} (hm : Inv m) (a ev : String) (lid : Nat) :
    (addDeviceListener m a ev lid).filter
        (fun e => e.2.address == a && e.2.eventName == ev) =
      [(generateListenerKey a ev, ⟨a, ev, lid⟩)] := by
  rw [addDeviceListener_eq, List.filter_append]
  have h1 : (mapDelete m (generateListenerKey a ev)).filter
      (fun e => e.2.address == a && e.2.eventName == ev) = [] := by
    rw [List.filter_eq_nil_iff]
    intro e he hpred
    rw [Bool.and_eq_true_iff] at hpred
    have ha : e.2.address = a := by
      have := hpred.1
      simpa using this
    have hev : e.2.eventName = ev := by
      have := hpred.2
      simpa using this
    have hkey : e.1 = generateListenerKey a ev := by
      rw [hm.2 e (mem_of_mem_mapDelete he), ha, hev]
    exact key_ne_of_mem_mapDelete he hkey
  rw [h1]
  simp

/-- C4: over every history of registry operations the listener registry
keeps at most one registration per (target identity, event name) key;
registering a second callback for a key removes the first so exactly the new
one is active; and `removeAllDeviceListeners(target)` leaves zero
registrations whose target identity matches that target while leaving every
other target's registrations unchanged (it equals the filter keeping exactly
the other-target entries, in their original order). -/
theorem listener_registry_invariants (ops : List RegOp) :
    (∀ address eventName, countFor (runOps ops) address eventName ≤ 1)
    ∧ (∀ address eventName listenerId,
        (addDeviceListener (runOps ops) address eventName listenerId).filter
            (fun e => e.2.address == address && e.2.eventName == eventName) =
          [(generateListenerKey address eventName, ⟨address, eventName, listenerId⟩)])
    ∧ (∀ target, removeAllDeviceListeners (runOps ops) target =
        (runOps ops).filter (fun e => !(e.2.address == target))) := by
  have hinv := runOps_inv ops
  exact ⟨fun a ev => countFor_le_one_of_inv hinv a ev,
         fun a ev lid => add_filter_single hinv a ev lid,
         fun t => removeAll_eq_filter hinv t⟩

end BLEEventManager

namespace BLEDiscovery

theorem mapGet_mem {α : Type} {m : JSMap α} {k : String} {v : α}
    (h : mapGet m k = some v) : (k, v) ∈ m := by
  unfold mapGet at h
  cases hf : m.find? (fun e => e.1 == k) with
  | none => rw [hf] at h; cases h
  | some e =>
      rw [hf] at h
      have he : e ∈ m := List.mem_of_find?_eq_some hf
      have hk : e.1 = k := by
        have := List.find?_some hf
        simpa using this
      have hv : e.2 = v := by simpa using h
      have hekv : e = (k, v) := Prod.ext hk hv
      exact hekv ▸ he

theorem mapGet_filter_of_key_false {α : Type} {m : JSMap α} {k : String}
    {p : String × α → Bool} (hp : ∀ e ∈ m, e.1 = k → p e = false) :
    mapGet (m.filter p) k = none := by
  induction m with
  | nil => rfl
  | cons a l ih =>
      have hl : ∀ e ∈ l, e.1 = k → p e = false :=
        fun e he => hp e (List.mem_cons_of_mem _ he)
      by_cases hak : a.1 = k
      · have hpa : p a = false := hp a (List.mem_cons_self _ _) hak
        simp only [List.filter_cons, hpa, Bool.false_eq_true, if_false]
        exact ih hl
      · have hbeq : (a.1 == k) = false := by simpa using hak
        cases hpa : p a with
        | false =>
            simp only [List.filter_cons, hpa, Bool.false_eq_true, if_false]
            exact ih hl
        | true =>
            simp only [List.filter_cons, hpa, if_true]
            unfold mapGet
            simp only [List.find?_cons, hbeq]
            exact ih hl

theorem mapGet_filter_of_key_true {α : Type} {m : JSMap α} {k : String}
    {p : String × α → Bool} (hp : ∀ e ∈ m, e.1 = k → p e = true) :
    mapGet (m.filter p) k = mapGet m k := by
  induction m with
  | nil => rfl
  | cons a l ih =>
      have hl : ∀ e ∈ l, e.1 = k → p e = true :=
        fun e he => hp e (List.mem_cons_of_mem _ he)
      by_cases hak : a.1 = k
      · have hpa : p a = true := hp a (List.mem_cons_self _ _) hak
        have hbeq : (a.1 == k) = true := by simpa using hak
        simp only [List.filter_cons, hpa, if_true]
        unfold mapGet
        simp only [List.find?_cons, hbeq]
      · have hbeq : (a.1 == k) = false := by simpa using hak
        cases hpa : p a with
        | false =>
            simp only [List.filter_cons, hpa, Bool.false_eq_true, if_false]
            unfold mapGet at ih ⊢
            simp only [List.find?_cons, hbeq]
            exact ih hl
        | true =>
            simp only [List.filter_cons, hpa, if_true]
            unfold mapGet at ih ⊢
            simp only [List.find?_cons, hbeq]
            exact ih hl

/-- C7: a cached device entry whose age exceeds the TTL (10 s) and has not
been re-observed is excluded from `getDiscoveredDevices(false)` yet still
present with `includeExpired = true`, and one run of the periodic sweep
removes it from the cache entirely while every entry still within the TTL
survives the sweep unchanged. -/
theorem cache_ttl_expiry (st : DiscoveryState) (now : Int) (address : String)
    (d : DeviceInfo) (hwf : WF st)
    (hget : mapGet st.discoveredDevices address = some d)
    (hexp : now - d.time > MAX_AGE) :
    d ∉ getDiscoveredDevices st now false
    ∧ d ∈ getDiscoveredDevices st now true
    ∧ mapGet (cleanupCache st now).discoveredDevices address = none
    ∧ (∀ a2 d2, mapGet st.discoveredDevices a2 = some d2 →
        now - d2.time < MAX_AGE →
        mapGet (cleanupCache st now).discoveredDevices a2 = some d2) := by
  have hmem : (address, d) ∈ st.discoveredDevices := mapGet_mem hget
  have haddr : d.address = address := hwf.2 (address, d) hmem
  have hinvalid : isCacheValid st now address = false := by
    unfold isCacheValid
    rw [hget]
    have : ¬(now - d.time < MAX_AGE) := by omega
    simpa using this
  refine ⟨?_, ?_, ?_, ?_⟩
  · intro hd
    unfold getDiscoveredDevices at hd
    simp only [if_neg (by simp : ¬(false = true))] at hd
    have hvalid := (List.mem_filter.mp hd).2
    rw [haddr, hinvalid] at hvalid
    cases hvalid
  · unfold getDiscoveredDevices
    simp only [if_pos rfl]
    exact List.mem_map_of_mem (·.2) hmem
  · unfold cleanupCache
    apply mapGet_filter_of_key_false
    intro e he hek
    rw [hek, hinvalid]
  · intro a2 d2 hget2 hfresh
    unfold cleanupCache
    rw [mapGet_filter_of_key_true]
    · exact hget2
    · intro e he hek
      rw [hek]
      unfold isCacheValid
      rw [hget2]
      simpa using hfresh

theorem cache_ttl_expiry_witness :
    mapGet (cleanupCache
        ⟨false, [("AA", ⟨"AA", "X", "Non disponibile", 0⟩),
                 ("BB", ⟨"BB", "Y", "Non disponibile", 15000⟩)], false, true, 0⟩
        20000).discoveredDevices "AA" = none :=
  (cache_ttl_expiry
    ⟨false, [("AA", ⟨"AA", "X", "Non disponibile", 0⟩),
             ("BB", ⟨"BB", "Y", "Non disponibile", 15000⟩)], false, true, 0⟩
    20000 "AA" ⟨"AA", "X", "Non disponibile", 0⟩
    (by constructor
        · decide
        · intro e he
          simp only [List.mem_cons, List.mem_singleton] at he
          rcases he with rfl | rfl | h
          · rfl
          · rfl
          · cases h)
    rfl (by decide)).2.2.1

end BLEDiscovery

namespace BLEDiscovery

theorem stopDiscovery_not_active (st : DiscoveryState) (a : AdapterOutcome)
    (h : st.isDiscovering = false) :
    stopDiscovery st a = ({ st with discoveryTimer := false }, []) := by
  unfold stopDiscovery
  simp [h]

theorem startDiscovery_already (st : DiscoveryState) (a : AdapterOutcome)
    (had : st.adapterSet = true) (hd : st.isDiscovering = true) :
    startDiscovery st a = (.ok true, st, []) := by
  unfold startDiscovery
  simp [had, hd]

theorem stopped_only_when_active (st : DiscoveryState) (a : AdapterOutcome)
    (n : Nat) (hmem : DiscoEvent.stopped n ∈ (stopDiscovery st a).2) :
    st.isDiscovering = true ∧ st.adapterSet = true := by
  by_cases had : st.adapterSet = true
  · by_cases hd : st.isDiscovering = true
    · exact ⟨hd, had⟩
    · have hd' : st.isDiscovering = false := by simpa using hd
      rw [stopDiscovery_not_active st a hd'] at hmem
      cases hmem
  · have had' : st.adapterSet = false := by simpa using had
    exfalso
    unfold stopDiscovery at hmem
    simp [had'] at hmem

/-- C8: `startDiscovery` is idempotent — invoked while discovery is
already active it returns `true` immediately with no events, no new poll
loop (the ghost counter is unchanged) and the device cache intact; and
`stopDiscovery` invoked while not discovering does not throw (it is a total
function) and emits no event at all, in particular no `stopped` event: the
`stopped` event, carrying the cached-device count, occurs only when an
adapter is bound and discovery was actually active. -/
theorem start_stop_idempotent (st : DiscoveryState) (a : AdapterOutcome) (n : Nat) :
    (st.adapterSet = true → st.isDiscovering = true →
      startDiscovery st a = (.ok true, st, []))
    ∧ (st.isDiscovering = false →
      stopDiscovery st a = ({ st with discoveryTimer := false }, []))
    ∧ (DiscoEvent.stopped n ∈ (stopDiscovery st a).2 →
      st.isDiscovering = true ∧ st.adapterSet = true) :=
  ⟨fun had hd => startDiscovery_already st a had hd,
   fun hd => stopDiscovery_not_active st a hd,
   fun hmem => stopped_only_when_active st a n hmem⟩

theorem start_stop_idempotent_witness :
    startDiscovery ⟨true, [("AA", ⟨"AA", "N", "Non disponibile", 0⟩)], false, true, 1⟩
        ⟨false, .ok (), .ok ()⟩ =
      (.ok true, ⟨true, [("AA", ⟨"AA", "N", "Non disponibile", 0⟩)], false, true, 1⟩, [])
    ∧ stopDiscovery ⟨false, [], false, true, 0⟩ ⟨false, .ok (), .ok ()⟩ =
      (⟨false, [], false, true, 0⟩, []) :=
  ⟨(start_stop_idempotent
      ⟨true, [("AA", ⟨"AA", "N", "Non disponibile", 0⟩)], false, true, 1⟩
      ⟨false, .ok (), .ok ()⟩ 0).1 rfl rfl,
   (start_stop_idempotent ⟨false, [], false, true, 0⟩ ⟨false, .ok (), .ok ()⟩ 0).2.1 rfl⟩

theorem stopDiscovery_flag (st : DiscoveryState) (a : AdapterOutcome)
    (h : st.adapterSet = true) :
    (stopDiscovery st a).1.isDiscovering = false
    ∧ (stopDiscovery st a).1.adapterSet = true := by
  unfold stopDiscovery
  by_cases hd : st.isDiscovering = true
  · cases hres : a.stopResult with
    | ok u => simp [h, hd, hres]
    | error msg =>
        by_cases hc : strContains msg "No discovery started" = true <;>
          simp [h, hd, hres, hc]
  · have hd' : st.isDiscovering = false := by simpa using hd
    simp [h, hd']

theorem startDiscovery_adapterSet (st : DiscoveryState) (a : AdapterOutcome) :
    (startDiscovery st a).2.1.adapterSet = st.adapterSet := by
  unfold startDiscovery
  by_cases h1 : st.adapterSet = true
  · by_cases h2 : st.isDiscovering = true
    · simp [h1, h2]
    · have h2' : st.isDiscovering = false := by simpa using h2
      simp only [h1, h2']
      cases a.startResult with
      | ok u => simp [h1]
      | error msg => simp only [Bool.not_true, Bool.false_eq_true, if_false]; split <;> simp [h1]
  · have h1' : st.adapterSet = false := by simpa using h1
    simp [h1']

theorem scanAddrs_fresh (env : SearchEnv) (criteria : Criteria) :
    ∀ (addrs : List String) (st : DiscoveryState) (now : Int) (dev : String)
      (st2 : DiscoveryState) (evs : List DiscoEvent),
      st.adapterSet = true →
      scanAddrs env criteria st now addrs = some (dev, false, st2, evs) →
      st2.isDiscovering = false ∧ st2.adapterSet = true := by
  intro addrs
  induction addrs with
  | nil =>
      intro st now dev st2 evs h hscan
      simp [scanAddrs] at hscan
  | cons address rest ih =>
      intro st now dev st2 evs h hscan
      simp only [scanAddrs] at hscan
      split at hscan
      · -- cache-valid branch
        split at hscan
        · -- a cached entry was found
          split at hscan
          · -- cached entry matches the criteria
            split at hscan
            · -- getDevice succeeded: the ghost flag is true, contradiction
              simp at hscan
            · exact ih st now dev st2 evs h hscan
          · exact ih st now dev st2 evs h hscan
        · exact ih st now dev st2 evs h hscan
      · -- fresh-fetch branch
        split at hscan
        · exact ih st now dev st2 evs h hscan
        · split at hscan
          · -- fresh device info matches: returns after stopDiscovery
            simp only [Option.some.injEq, Prod.mk.injEq] at hscan
            obtain ⟨hdev, hvc, hst2, hevs⟩ := hscan
            rw [← hst2]
            exact stopDiscovery_flag st env.adapter h
          · exact ih st now dev st2 evs h hscan

theorem findLoop_stop (env : SearchEnv) (criteria : Criteria) :
    ∀ (rounds : List Round) (st : DiscoveryState), st.adapterSet = true →
      (((findLoop env criteria st rounds).1 = none →
        (findLoop env criteria st rounds).2.1.isDiscovering = false)
      ∧ (∀ dev, (findLoop env criteria st rounds).1 = some (dev, false) →
        (findLoop env criteria st rounds).2.1.isDiscovering = false)) := by
  intro rounds
  induction rounds with
  | nil =>
      intro st h
      constructor
      · intro _
        simp only [findLoop]
        exact (stopDiscovery_flag st env.adapter h).1
      · intro dev hsome
        simp [findLoop] at hsome
  | cons r rest ih =>
      intro st h
      have hR : ({ st with discoveredDevices := r.cache } : DiscoveryState).adapterSet = true := h
      simp only [findLoop]
      cases hscan : scanAddrs env criteria { st with discoveredDevices := r.cache }
          r.now r.addrs with
      | some val =>
          obtain ⟨dev2, viaCache, st2, evs⟩ := val
          constructor
          · intro hnone
            simp at hnone
          · intro dev hsome
            simp only [Option.some.injEq, Prod.mk.injEq] at hsome
            obtain ⟨hdev, hvc⟩ := hsome
            subst hvc
            exact (scanAddrs_fresh env criteria r.addrs _ r.now dev2 st2 evs hR
              (by rw [hscan])).1
      | none =>
          exact ih { st with discoveredDevices := r.cache } hR

/-- C5 (amended): `findDevice` stops discovery before returning in two of
its three exit paths — whenever it returns the not-found result (timeout or
internal error) discovery has been stopped, and whenever it returns a match
obtained by a fresh fetch it awaits `stopDiscovery` first; the third conjunct
shows the elapsed-timeout path verbatim: stop discovery, emit
`search_timeout`, return `null`. A match served from a cache-valid entry,
however, is returned *without* stopping discovery (see the counterexample
theorem). -/
theorem findDevice_stops_discovery (env : SearchEnv) (criteria : Criteria)
    (st : DiscoveryState) (rounds : List Round) (h : st.adapterSet = true) :
    ((findDevice env criteria st rounds).1 = none →
      (findDevice env criteria st rounds).2.1.isDiscovering = false)
    ∧ (∀ dev, (findDevice env criteria st rounds).1 = some (dev, false) →
      (findDevice env criteria st rounds).2.1.isDiscovering = false)
    ∧ (∀ st2, findLoop env criteria st2 [] =
        (none, (stopDiscovery st2 env.adapter).1,
          (stopDiscovery st2 env.adapter).2 ++ [DiscoEvent.searchTimeout])) := by
  have hpres := startDiscovery_adapterSet st env.adapter
  rw [h] at hpres
  unfold findDevice
  cases hsd : startDiscovery st env.adapter with
  | mk res1 rest1 =>
      obtain ⟨st1, evs1⟩ := rest1
      have hst1 : st1.adapterSet = true := by
        rw [hsd] at hpres
        exact hpres
      cases res1 with
      | ok b =>
          simp only []
          have hloop := findLoop_stop env criteria rounds st1 hst1
          exact ⟨fun hn => hloop.1 hn, fun dev hs => hloop.2 dev hs, fun st2 => rfl⟩
      | error msg =>
          simp only []
          exact ⟨fun _ => (stopDiscovery_flag st1 env.adapter hst1).1,
                 fun dev hs => by simp at hs,
                 fun st2 => rfl⟩

theorem findDevice_stops_discovery_witness :
    (findDevice ⟨fun a => some a, fun _ => none, fun _ => none, ⟨false, .ok (), .ok ()⟩⟩
        ⟨some "ARK", none⟩ ⟨false, [], false, true, 0⟩ []).2.1.isDiscovering = false :=
  (findDevice_stops_discovery
    ⟨fun a => some a, fun _ => none, fun _ => none, ⟨false, .ok (), .ok ()⟩⟩
    ⟨some "ARK", none⟩ ⟨false, [], false, true, 0⟩ [] rfl).1 rfl

/-- C5 counterexample: a concrete `findDevice` run (discovery already
active, matching entry cache-valid at the poll instant) that returns the
matched device while discovery is still running — the cache-valid branch
returns `adapter.getDevice(address)` without awaiting `stopDiscovery`, so
"whenever it returns a matching device handle discovery has been stopped" is
false as stated. -/
theorem findDevice_cache_hit_counterexample :
    (findDevice
        ⟨fun a => some a, fun _ => some "ARK", fun _ => some (-50), ⟨true, .ok (), .ok ()⟩⟩
        ⟨some "ARK", none⟩
        ⟨true, [("AA", ⟨"AA", "ARK", "-50 dBm", 0⟩)], false, true, 1⟩
        [⟨100, [("AA", ⟨"AA", "ARK", "-50 dBm", 0⟩)], ["AA"]⟩]).1 = some ("AA", true)
    ∧ (findDevice
        ⟨fun a => some a, fun _ => some "ARK", fun _ => some (-50), ⟨true, .ok (), .ok ()⟩⟩
        ⟨some "ARK", none⟩
        ⟨true, [("AA", ⟨"AA", "ARK", "-50 dBm", 0⟩)], false, true, 1⟩
        [⟨100, [("AA", ⟨"AA", "ARK", "-50 dBm", 0⟩)], ["AA"]⟩]).2.1.isDiscovering = true :=
  ⟨rfl, rfl⟩

/-- C6 (code bug): the RSSI threshold in `matchesCriteria` is never
enforced, because `getDeviceInfo` stores the RSSI as the formatted string
`` `${rssi} dBm` `` (or `'Non disponibile'`) and the JS comparison
`deviceInfo.rssi < criteria.minRssi` coerces that string to `NaN`, making the
comparison false: a device whose signal strength (−90 dBm) is below the
−80 dBm threshold still matches when its name matches. -/
theorem rssi_threshold_not_enforced :
    matchesCriteria ⟨"AA", "ARK", "-90 dBm", 0⟩ ⟨some "ARK", some (-80)⟩ = true
    ∧ jsToNumber "-90 dBm" = none
    ∧ (getDeviceInfo
        ⟨fun a => some a, fun _ => some "ARK", fun _ => some (-90), ⟨true, .ok (), .ok ()⟩⟩
        "AA" 0).rssi = "-90 dBm"
    ∧ matchesCriteria
        (getDeviceInfo
          ⟨fun a => some a, fun _ => some "ARK", fun _ => some (-90), ⟨true, .ok (), .ok ()⟩⟩
          "AA" 0)
        ⟨some "ARK", some (-80)⟩ = true
    ∧ jsToNumber "Non disponibile" = none := by
  refine ⟨by decide, by decide, by decide, by decide, by decide⟩

end BLEDiscovery
